import Mathlib

/-!
Verification development for the `import-analyzer.py` tool: a static-analysis
pass that resolves dotted module references to on-disk files, collects the
usage of imports and attributes across a source tree, and reconciles the
declared `__all__` export list of each module against that usage.

The definitions below are a shallow embedding of `src/import-analyzer.py`.
Paths are modelled root-relatively (the script computes `rootDir` once and the
reconciler assumes the working directory is the project root, since it opens
`module_fpath` both with and without the `rootDir` prefix).  String primitives
(`split`, `join`, `endswith`, `replace`) are re-implemented structurally over
character lists so that every definition reduces in the kernel; they agree
with the Python originals on the root-relative, slash-separated paths the
script manipulates (no absolute paths, no trailing separators).
-/

namespace ImportAnalyzer

/-- Split a character list on a separator character; mirrors Python
`str.split(sep)` for a one-character separator (so `"" ↦ [""]`). -/
def splitCharsOn (sep : Char) : List Char → List Char → List (List Char)
  | [], acc => [acc.reverse]
  | c :: cs, acc =>
    if c = sep then acc.reverse :: splitCharsOn sep cs []
    else splitCharsOn sep cs (c :: acc)

/-- Split a string on a single-character separator, Python `str.split(sep)`. -/
def splitOnChar (sep : Char) (s : String) : List String :=
  (splitCharsOn sep s.toList []).map (fun l => ⟨l⟩)

/-- Join strings with a separator, Python `sep.join(...)` on nonempty input. -/
def joinWith (sep : String) : List String → String
  | [] => ""
  | [x] => x
  | x :: xs => x ++ sep ++ joinWith sep xs

/-- Python `os.path.join(*parts)` for relative, non-slash-terminated parts:
empty components vanish and the rest are joined with `/`. -/
def joinParts (parts : List String) : String :=
  joinWith "/" (parts.filter (fun p => p ≠ ""))

/-- Python `os.path.split(p)` for a relative path: the text before the last
slash and the text after it. -/
def osSplit (p : String) : String × String :=
  let comps := splitOnChar '/' p
  (joinWith "/" comps.dropLast, comps.getLastD "")

/-- Python `s.endswith(suffix)`. -/
def strEndsWith (s suff : String) : Bool :=
  suff.toList.isSuffixOf s.toList

/-- Python `s.replace("/", ".")` (both patterns are single characters). -/
def replaceSlashDot (s : String) : String :=
  ⟨s.toList.map (fun c => if c = '/' then '.' else c)⟩

/-- Membership-checked insertion: Python `set.add` on a duplicate-free list. -/
def insertS (xs : List String) (x : String) : List String :=
  if x ∈ xs then xs else xs ++ [x]

/-- Python `set.update` / union, keeping the elements of the left list first. -/
def unionS (xs ys : List String) : List String :=
  ys.foldl insertS xs

/-- Python `set.discard`. -/
def removeS (xs : List String) (x : String) : List String :=
  xs.filter (fun y => y ≠ x)

/-- Python `set.difference`. -/
def diffS (xs ys : List String) : List String :=
  xs.filter (fun y => y ∉ ys)

/-- Python `set(list)`: collapse a list to its duplicate-free support. -/
def dedupS (xs : List String) : List String :=
  xs.foldl insertS []

/-- Lexicographic comparison of character lists by code point. -/
def lexLe : List Char → List Char → Bool
  | [], _ => true
  | _ :: _, [] => false
  | a :: as, b :: bs => if a = b then lexLe as bs else decide (a.toNat < b.toNat)

/-- String comparison used to model Python `sorted(...)`. -/
def strLe (a b : String) : Bool :=
  lexLe a.toList b.toList

/-- Insert into a sorted list, keeping the order given by `strLe`. -/
def insertSorted (x : String) : List String → List String
  | [] => [x]
  | y :: ys => if strLe x y then x :: y :: ys else y :: insertSorted x ys

/-- Python `sorted(...)` on a list of strings. -/
def sortS (l : List String) : List String :=
  l.foldr insertSorted []

/-- Contents of one on-disk file: readable text, or a file whose `open`/read
raises (missing, unreadable, or undecodable). -/
inductive ReadResult where
  | ok (text : String)
  | ioErr
deriving DecidableEq, Repr

/-- A snapshot of the project tree, root-relative: the directories that exist
and the files that exist together with their contents.  The script assumes
this snapshot is immutable during a run. -/
structure FS where
  dirs : List String
  files : List (String × ReadResult)
deriving DecidableEq, Repr

/-- Python `os.path.isdir` on a root-relative path. -/
def FS.isDir (fs : FS) (p : String) : Bool :=
  fs.dirs.contains p

/-- Python `os.path.isfile` on a root-relative path. -/
def FS.isFile (fs : FS) (p : String) : Bool :=
  (fs.files.map Prod.fst).contains p

/-- Look up the read outcome of a file; a missing file reads as an error, like
Python `open` raising `FileNotFoundError`. -/
def findRead : List (String × ReadResult) → String → ReadResult
  | [], _ => .ioErr
  | (q, r) :: rest, p => if q = p then r else findRead rest p

/-- Python `open(p).read()` with its failure mode. -/
def FS.readFile (fs : FS) (p : String) : ReadResult :=
  findRead fs.files p

/-- Replace (or create) the contents of a file. -/
def updateFiles : List (String × ReadResult) → String → String → List (String × ReadResult)
  | [], p, t => [(p, .ok t)]
  | (q, r) :: rest, p, t =>
    if q = p then (q, .ok t) :: rest else (q, r) :: updateFiles rest p t

/-- Python `open(p, "w").write(text)`. -/
def FS.writeFile (fs : FS) (p text : String) : FS :=
  { fs with files := updateFiles fs.files p text }

/-- Run configuration: the ambient standard-library module names
(`sys.stdlib_module_names`), the `pyproject.toml` exclusions
(`exclude` patterns abstracted to a predicate, and
`exclude_toplevel_module`), and the project root path. -/
structure Config where
  stdlibNames : List String
  excludeToplevel : List String
  isExcluded : String → Bool
  rootDir : String

/-- The candidate relative path tried by the resolver: if the first component
matches a sibling file (with or without `.py`) or sibling subdirectory, the
reference counts as relative and the `os.path.split` components of the
referencing directory are prepended; otherwise it is taken from the project root.
Mirrors lines 94-104 of `moduleFilePath`. -/
def candidatePath (dirPathRel : String) (subDirs files : List String)
    (parts : List String) : String :=
  match parts with
  | [] => joinParts []
  | main :: rest =>
    if files.contains main || files.contains (main ++ ".py") || subDirs.contains main then
      joinParts ((osSplit dirPathRel).1 :: (osSplit dirPathRel).2 :: main :: rest)
    else
      joinParts (main :: rest)

/-- Result of one resolver call: the resolved root-relative file (or `none`),
and whether a diagnostic was printed to stderr. -/
structure ResolveResult where
  result : Option String
  diagnostic : Bool
deriving DecidableEq, Repr

/-- The module resolver, `moduleFilePath` (lines 76-117): map a dotted
reference, given the referencing directory and its sibling file/dir listings,
to an on-disk file or to unresolved. -/
def moduleFilePath (cfg : Config) (fs : FS) (module : String) (dirPathRel : String)
    (subDirs files : List String) (silent : Bool) : ResolveResult :=
  if module = "" then ⟨none, false⟩
  else
    match splitOnChar '.' module with
    | [] => ⟨none, false⟩
    | main :: rest =>
      if cfg.stdlibNames.contains main then ⟨none, false⟩
      else if cfg.excludeToplevel.contains main then ⟨none, false⟩
      else
        let pathRel := candidatePath dirPathRel subDirs files (main :: rest)
        if fs.isDir pathRel then
          if fs.isFile (joinParts [pathRel, "__init__.py"]) then
            ⟨some (joinParts [pathRel, "__init__.py"]), false⟩
          else ⟨none, false⟩
        else if fs.isFile (pathRel ++ ".py") then
          ⟨some (pathRel ++ ".py"), false⟩
        else
          ⟨none, !silent⟩

/-- The slice of the Python abstract syntax tree that the usage walker
dispatches on directly in the forms exercised here.  Statement and expression
kinds share one type, matching the dynamic `isinstance` dispatch of
`handleStatement` over `ast.stmt | ast.expr`; `unknown` stands for any node kind the
walker meets in its final `else` branch (logged and not recursed into). -/
inductive PyNode where
  | imprt (names : List (String × Option String))
  | importFrom (module : Option String) (names : List (String × Option String))
  | assign (targets : List PyNode) (value : PyNode)
  | name (id : String)
  | constant (value : String)
  | listLit (elts : List PyNode)
  | attribute (value : PyNode) (attr : String)
  | exprStmt (value : PyNode)
  | unknown

/-- Result of Python `ast.parse`: the module body. -/
structure PyModule where
  body : List PyNode

/-- Map every element to its constant payload, or fail on the first
non-constant element (the per-element `assert isinstance(elem, ast.Constant)`
in `find__all__`). -/
def constList : List PyNode → Option (List String)
  | [] => some []
  | .constant v :: rest => (constList rest).map (fun l => v :: l)
  | _ :: _ => none

/-- `find__all__` (lines 120-138): scan the module body for the first
top-level assignment whose first target is the name `__all__` and return its
list of constants.  An `__all__` assignment whose value is not a list
literal, whose element is not a constant, or which has more than one target
trips an `assert` — modelled as `.error ()`, which is fatal to the run.
An assignment with an empty target list would raise `IndexError` at
`stm.targets[0]`; real parses never produce one. -/
def find__all__ : List PyNode → Except Unit (Option (List String))
  | [] => .ok none
  | stm :: rest =>
    match stm with
    | .assign targets value =>
      match targets with
      | [] => .error ()
      | t :: ts =>
        match t with
        | .name id =>
          if id = "__all__" then
            match value with
            | .listLit elts =>
              if ts.isEmpty then
                match constList elts with
                | some vals => .ok (some vals)
                | none => .error ()
              else .error ()
            | _ => .error ()
          else find__all__ rest
        | _ => find__all__ rest
    | _ => find__all__ rest

/-- Fatal outcomes that abort the whole run: an unguarded `open`/read failure,
or a tripped `assert` in `find__all__`. -/
inductive Fatal where
  | readError (fpath : String)
  | malformedAll (fpath : String)
deriving DecidableEq, Repr

/-- A line printed during the run, structured by which print emitted it. -/
inductive Report where
  | unusedSymbol (fpath symbol : String)
  | addSuggestion (fpath : String) (names : List String)
  | newAllSuggestion (fpath : String) (names : List String)
  | parseFailure (fpath msg : String)
  | unresolvedRef (module dirPathRel : String)
  | unknownStmt (fpath : String)
deriving DecidableEq, Repr

/-- The file a report is about. -/
def Report.path : Report → String
  | .unusedSymbol p _ => p
  | .addSuggestion p _ => p
  | .newAllSuggestion p _ => p
  | .parseFailure p _ => p
  | .unresolvedRef m _ => m
  | .unknownStmt p => p

/-- Association-list lookup keyed by strings. -/
def lookupA {α : Type} : List (String × α) → String → Option α
  | [], _ => none
  | (k, v) :: rest, q => if k = q then some v else lookupA rest q

/-- Python truthiness of `dict.get(key)` on set values: a present, non-empty
entry. -/
def truthy (o : Option (List String)) : Bool :=
  match o with
  | none => false
  | some l => !l.isEmpty

/-- `os.sep + "__init__.py"`. -/
def slashDunderInit : String := "/__init__.py"

/-- One step of the `names1` loop of the reconciler (lines 436-442): a from-imported
name of a package-init file that shadows an existing sibling submodule file or
subpackage directory is recorded as skipped; otherwise it joins the required
set. -/
def names1Step (fs : FS) (p : String) (acc : List String × List (String × String))
    (nm : String) : List String × List (String × String) :=
  if strEndsWith p slashDunderInit then
    let moduleDirName := joinParts [(osSplit p).1, nm]
    if fs.isFile (moduleDirName ++ ".py") || fs.isDir moduleDirName then
      (acc.1, acc.2 ++ [(p, nm)])
    else (insertS acc.1 nm, acc.2)
  else (insertS acc.1 nm, acc.2)

/-- The package-shadow test applied to one name, equivalent to the nested
conditions of `names1Step`. -/
def shadowB (fs : FS) (p nm : String) : Bool :=
  strEndsWith p slashDunderInit &&
    (fs.isFile (joinParts [(osSplit p).1, nm] ++ ".py") ||
      fs.isDir (joinParts [(osSplit p).1, nm]))

/-- The required set `_all_set` of the reconciler and the shadow-skipped pairs
(lines 427-446): start from the declared names, fold in the from-imported
names through the package-shadow filter, union the attribute-accessed names,
and discard the wildcard marker. -/
def requiredSet (fs : FS) (p : String) (allCur : List String)
    (names1 names2 : Option (List String)) : List String × List (String × String) :=
  let s1 :=
    if truthy names1 then (names1.getD []).foldl (names1Step fs p) (allCur, [])
    else (allCur, [])
  let s2 := if truthy names2 then unionS s1.1 (names2.getD []) else s1.1
  (removeS s2 "*", s1.2)

/-- `used_set` (line 451): all names imported from the module or accessed as
its attributes, before the shadow filter. -/
def usedNames (names1 names2 : Option (List String)) : List String :=
  unionS (dedupS (names1.getD [])) (names2.getD [])

/-- The hard-coded `modifyAndOpenFiles` flag (line 18). -/
def modifyAndOpenFiles : Bool := true

/-- The single quote character as a string. -/
def sq : String := "\u0027"

/-- Python `repr` of a list of plain (quote-free, backslash-free) strings. -/
def pyReprStrList (l : List String) : String :=
  "[" ++ joinWith ", " (l.map (fun s => sq ++ s ++ sq)) ++ "]"

/-- The synthesized declaration text `f"__all__ = {add_list!r}"` (line 468). -/
def exportDeclLine (l : List String) : String :=
  "__all__ = " ++ pyReprStrList l

/-- Observable effects of one iteration of the reconciler loop on one
candidate module file: which paths it opened, the rewritten text if any,
whether the file was marked modified, its stdout reports, stderr diagnostics,
and `skipAllAdd` additions. -/
structure StepOut where
  reads : List String
  newText : Option String
  modified : Bool
  reports : List Report
  diags : List Report
  skipped : List (String × String)
deriving DecidableEq, Repr

/-- The unused-symbol reports printed for one candidate with a declared list
(lines 450-455): declared names outside `used_set`, in sorted order. -/
def stepReports1 (p : String) (allOpt : Option (List String))
    (importedFromBy attrBy : List (String × List String)) : List Report :=
  if allOpt.isSome then
    (sortS (diffS (dedupS (allOpt.getD []))
      (usedNames (lookupA importedFromBy p) (lookupA attrBy p)))).map
      (Report.unusedSymbol p)
  else []

/-- `add_list` (line 459): the required names beyond the declared ones. -/
def stepAddList (fs : FS) (p : String) (allOpt : Option (List String))
    (importedFromBy attrBy : List (String × List String)) : List String :=
  diffS (requiredSet fs p (dedupS (allOpt.getD [])) (lookupA importedFromBy p)
    (lookupA attrBy p)).1 (dedupS (allOpt.getD []))

/-- One iteration of the reconciler loop (lines 410-475) for `module_fpath`:
read the file, skip excluded paths, parse, locate `__all__`, build the
required set, report unused declared names, and either suggest additions (a
declared list is never rewritten) or synthesize and prepend a new declaration
and mark the file modified. -/
def reconcileStep (cfg : Config) (parseFn : String → Except String PyModule)
    (fs : FS) (importedFromBy attrBy : List (String × List String))
    (p : String) : Except Fatal StepOut :=
  match fs.readFile p with
  | .ioErr => .error (.readError p)
  | .ok _text =>
    if cfg.isExcluded p then
      .ok ⟨[p], none, false, [], [], []⟩
    else if cfg.excludeToplevel.contains ((splitOnChar '/' p).headD "") then
      .ok ⟨[p], none, false, [], [], []⟩
    else
      match parseFn _text with
      | .error e => .ok ⟨[p], none, false, [], [.parseFailure p e], []⟩
      | .ok code =>
        match find__all__ code.body with
        | .error _ => .error (.malformedAll p)
        | .ok allOpt =>
          if (requiredSet fs p (dedupS (allOpt.getD [])) (lookupA importedFromBy p)
              (lookupA attrBy p)).1.isEmpty then
            .ok ⟨[p], none, false, [], [],
              (requiredSet fs p (dedupS (allOpt.getD [])) (lookupA importedFromBy p)
                (lookupA attrBy p)).2⟩
          else if (requiredSet fs p (dedupS (allOpt.getD [])) (lookupA importedFromBy p)
              (lookupA attrBy p)).1.length = (dedupS (allOpt.getD [])).length then
            .ok ⟨[p], none, false, stepReports1 p allOpt importedFromBy attrBy, [],
              (requiredSet fs p (dedupS (allOpt.getD [])) (lookupA importedFromBy p)
                (lookupA attrBy p)).2⟩
          else if allOpt.isSome then
            .ok ⟨[p], none, false,
              stepReports1 p allOpt importedFromBy attrBy ++
                [.addSuggestion p (stepAddList fs p allOpt importedFromBy attrBy)], [],
              (requiredSet fs p (dedupS (allOpt.getD [])) (lookupA importedFromBy p)
                (lookupA attrBy p)).2⟩
          else if modifyAndOpenFiles then
            match fs.readFile p with
            | .ioErr => .error (.readError p)
            | .ok text2 =>
              .ok ⟨[p, p],
                some (exportDeclLine (stepAddList fs p allOpt importedFromBy attrBy) ++
                  "\n" ++ text2),
                true, stepReports1 p allOpt importedFromBy attrBy, [],
                (requiredSet fs p (dedupS (allOpt.getD [])) (lookupA importedFromBy p)
                  (lookupA attrBy p)).2⟩
          else
            .ok ⟨[p], none, false,
              stepReports1 p allOpt importedFromBy attrBy ++
                [.newAllSuggestion p (stepAddList fs p allOpt importedFromBy attrBy)], [],
              (requiredSet fs p (dedupS (allOpt.getD [])) (lookupA importedFromBy p)
                (lookupA attrBy p)).2⟩

/-- Accumulated effects of the whole reconciler loop. -/
structure PassOut where
  fs : FS
  modifiedFiles : List String
  reports : List Report
  diags : List Report
  skipAllAdd : List (String × String)
  reads : List String
deriving Repr

/-- The reconciler loop over the sorted candidate list, threading file
rewrites through the tree snapshot. -/
def reconcilePass (cfg : Config) (parseFn : String → Except String PyModule)
    (importedFromBy attrBy : List (String × List String)) (fs : FS) :
    List String → Except Fatal PassOut
  | [] => .ok ⟨fs, [], [], [], [], []⟩
  | c :: rest =>
    match reconcileStep cfg parseFn fs importedFromBy attrBy c with
    | .error e => .error e
    | .ok out =>
      let fs' := match out.newText with
        | some t => fs.writeFile c t
        | none => fs
      match reconcilePass cfg parseFn importedFromBy attrBy fs' rest with
      | .error e => .error e
      | .ok po =>
        .ok ⟨po.fs, (if out.modified then [c] else []) ++ po.modifiedFiles,
          out.reports ++ po.reports, out.diags ++ po.diags,
          out.skipped ++ po.skipAllAdd, out.reads ++ po.reads⟩

/-- `to_check_imported_modules` (lines 382-392): every module file keyed by
the aggregated from-import map or reached by an attribute access whose
resolution succeeded. -/
def toCheckImportedModules (importedFromBy : List (String × List String))
    (attrPairs : List (String × Option String)) : List String :=
  let s1 := importedFromBy.foldl (fun acc kv => insertS acc kv.1) []
  attrPairs.foldl
    (fun acc pr =>
      match pr.2 with
      | none => acc
      | some fp => insertS acc fp) s1

/-- `module_attr_access_by_fpath` (lines 395-403): group the accessed
attribute names by resolved module file, dropping unresolved accesses. -/
def moduleAttrAccessByFpath (attrPairs : List (String × Option String)) :
    List (String × List String) :=
  attrPairs.foldl
    (fun m pr =>
      match pr.2 with
      | none => m
      | some fp =>
        match lookupA m fp with
        | some attrs => (m.filter (fun kv => kv.1 ≠ fp)) ++ [(fp, insertS attrs pr.1)]
        | none => m ++ [(fp, insertS [] pr.1)]) []

/-- The complete reconciliation pass (lines 382-475): build the candidate set
and the per-file attribute map from the aggregated usage, then run the loop
over the sorted candidates. -/
def reconcileRun (cfg : Config) (parseFn : String → Except String PyModule)
    (fs : FS) (importedFromBy : List (String × List String))
    (attrPairs : List (String × Option String)) : Except Fatal PassOut :=
  reconcilePass cfg parseFn importedFromBy (moduleAttrAccessByFpath attrPairs) fs
    (sortS (toCheckImportedModules importedFromBy attrPairs))

/-- Per-file walker state (`imports_by_name` and `attr_access` inside
`processFile`): local binding name to origin dotted name and resolved file,
and the set of observed (identifier, attribute) pairs. -/
structure FileState where
  importsByName : List (String × (String × Option String))
  attrAccess : List (String × String)

/-- Run-global aggregation state (`imported_set`,
`imported_from_by_module_path`, `all_module_attr_access`) plus the
diagnostics printed so far. -/
structure GState where
  importedSet : List String
  importedFromBy : List (String × List String)
  allModuleAttrAccess : List (String × Option String)
  diags : List Report

/-- Walker state: the file-local closure variables and the globals. -/
abbrev CState := FileState × GState

/-- Update an association list entry, Python `d[k] = v`. -/
def updateA {α : Type} (m : List (String × α)) (k : String) (v : α) :
    List (String × α) :=
  (m.filter (fun kv => kv.1 ≠ k)) ++ [(k, v)]

/-- Insert a pair into a set-valued list, Python `set.add` on pairs. -/
def insertPairS (xs : List (String × String)) (x : String × String) :
    List (String × String) :=
  if x ∈ xs then xs else xs ++ [x]

/-- Insert an (attribute, resolved-file) pair, Python `set.add` on
`all_module_attr_access`. -/
def insertAttrPair (xs : List (String × Option String)) (x : String × Option String) :
    List (String × Option String) :=
  if x ∈ xs then xs else xs ++ [x]

/-- Create the per-module entry of `imported_from_by_module_path` if absent
(lines 190-193). -/
def ensureKey (m : List (String × List String)) (k : String) :
    List (String × List String) :=
  match lookupA m k with
  | some _ => m
  | none => m ++ [(k, [])]

/-- Add a name to the `imported_from` set of a module. -/
def addToKey (m : List (String × List String)) (k nm : String) :
    List (String × List String) :=
  match lookupA m k with
  | some l => (m.filter (fun kv => kv.1 ≠ k)) ++ [(k, insertS l nm)]
  | none => m ++ [(k, insertS [] nm)]

/-- Inputs fixed while walking one file: configuration, tree snapshot, and the
referencing directory with its sibling listings. -/
structure Ctx where
  cfg : Config
  fs : FS
  dirPathRel : String
  subDirs : List String
  files : List String

/-- Record a stderr diagnostic. -/
def addDiag (st : CState) (r : Report) : CState :=
  (st.1, { st.2 with diags := st.2.diags ++ [r] })

/-- `handleImport` (lines 159-175): resolve each `import X [as Y]` binding;
unresolved names contribute nothing. -/
def handleImport (ctx : Ctx) (names : List (String × Option String))
    (st : CState) : CState :=
  names.foldl
    (fun st a =>
      let r := moduleFilePath ctx.cfg ctx.fs a.1 ctx.dirPathRel ctx.subDirs ctx.files false
      let st := if r.diagnostic then addDiag st (.unresolvedRef a.1 ctx.dirPathRel) else st
      match r.result with
      | none => st
      | some fp =>
        let key := a.2.getD a.1
        ({ st.1 with importsByName := updateA st.1.importsByName key (a.1, some fp) },
         { st.2 with importedSet := insertS st.2.importedSet a.1 })) st

/-- `handleImportFrom` (lines 177-210): resolve the `from` target (an implicit
target means the own dotted package of the current directory), create its
aggregation entry, then bind and record each imported name. -/
def handleImportFrom (ctx : Ctx) (moduleOpt : Option String)
    (names : List (String × Option String)) (st : CState) : CState :=
  let module := match moduleOpt with
    | some m => m
    | none => replaceSlashDot ctx.dirPathRel
  let r := moduleFilePath ctx.cfg ctx.fs module ctx.dirPathRel ctx.subDirs ctx.files false
  let st := if r.diagnostic then addDiag st (.unresolvedRef module ctx.dirPathRel) else st
  match r.result with
  | none => st
  | some mfp =>
    let st := (st.1, { st.2 with importedFromBy := ensureKey st.2.importedFromBy mfp })
    names.foldl
      (fun st a =>
        if a.1 = "" then st
        else
          let full := module ++ "." ++ a.1
          let tmp := moduleFilePath ctx.cfg ctx.fs full ctx.dirPathRel ctx.subDirs ctx.files true
          let key := a.2.getD a.1
          ({ st.1 with importsByName := updateA st.1.importsByName key (full, tmp.result) },
           { st.2 with importedFromBy := addToKey st.2.importedFromBy mfp a.1 })) st

mutual

/-- `handleStatement` (lines 227-342) restricted to the node kinds of
`PyNode`: dispatch on the syntactic kind, record imports and attribute
accesses, recurse into children, and log unknown kinds. -/
def handleStatement (ctx : Ctx) (fpathRel : String) (stm : PyNode) (st : CState) :
    CState :=
  match stm with
  | .imprt ns => handleImport ctx ns st
  | .importFrom m ns => handleImportFrom ctx m ns st
  | .name _ => st
  | .constant _ => st
  | .assign targets value =>
    handleNodeList ctx fpathRel targets (handleStatement ctx fpathRel value st)
  | .exprStmt v => handleStatement ctx fpathRel v st
  | .listLit elts => handleNodeList ctx fpathRel elts st
  | .attribute value attr =>
    match value with
    | .name id => ({ st.1 with attrAccess := insertPairS st.1.attrAccess (id, attr) }, st.2)
    | v => handleStatement ctx fpathRel v st
  | .unknown => addDiag st (.unknownStmt fpathRel)

/-- `handleStatementList`: walk children in order. -/
def handleNodeList (ctx : Ctx) (fpathRel : String) (stms : List PyNode) (st : CState) :
    CState :=
  match stms with
  | [] => st
  | s :: rest => handleNodeList ctx fpathRel rest (handleStatement ctx fpathRel s st)

end

/-- The two reserved identifiers excluded from attribute tracking
(line 363). -/
def reservedIds : List String := ["self", "msg"]

/-- The attribute-resolution loop at the end of `processFile` (lines
362-370): look each recorded (identifier, attribute) pair up in the local
bindings of the file and emit (attribute, resolved file) into the global set. -/
def resolveAttrAccess (fst : FileState) (g : GState) : GState :=
  fst.attrAccess.foldl
    (fun g pr =>
      if reservedIds.contains pr.1 then g
      else
        match lookupA fst.importsByName pr.1 with
        | none => g
        | some ov =>
          { g with allModuleAttrAccess := insertAttrPair g.allModuleAttrAccess (pr.2, ov.2) })
    g

/-- `processFile` (lines 141-370): skip non-source and excluded files, read
the file (an unguarded `open` — a read failure aborts the run), parse it
(a parse failure is caught: diagnostic, file skipped), walk the body, then
resolve the recorded attribute accesses. -/
def processFile (cfg : Config) (fs : FS) (parseFn : String → Except String PyModule)
    (dirPathRel fname : String) (subDirs files : List String) (g : GState) :
    Except Fatal GState :=
  if !strEndsWith fname ".py" then .ok g
  else
    let fpathRel := joinParts [dirPathRel, fname]
    if cfg.isExcluded (cfg.rootDir ++ fpathRel) then .ok g
    else if cfg.isExcluded fpathRel then .ok g
    else
      match fs.readFile fpathRel with
      | .ioErr => .error (.readError fpathRel)
      | .ok text =>
        match parseFn text with
        | .error e => .ok { g with diags := g.diags ++ [.parseFailure fpathRel e] }
        | .ok code =>
          let ctx : Ctx := ⟨cfg, fs, dirPathRel, subDirs, files⟩
          let st0 : CState := (⟨[], []⟩, g)
          let st1 := code.body.foldl
            (fun st stm =>
              match stm with
              | .imprt ns => handleImport ctx ns st
              | .importFrom m ns => handleImportFrom ctx m ns st
              | s => handleStatement ctx fpathRel s st) st0
          .ok (resolveAttrAccess st1.1 st1.2)

/-- One directory entry of the `os.walk` enumeration. -/
structure WalkEntry where
  dirPathRel : String
  subDirs : List String
  files : List String

/-- The inner loop of the walk: process every file of one directory. -/
def collectFiles (cfg : Config) (fs : FS) (parseFn : String → Except String PyModule)
    (e : WalkEntry) : List String → GState → Except Fatal GState
  | [], g => .ok g
  | f :: rest, g =>
    match processFile cfg fs parseFn e.dirPathRel f e.subDirs e.files g with
    | .error err => .error err
    | .ok g' => collectFiles cfg fs parseFn e rest g'

/-- The usage-collection pass (lines 375-379): fold `processFile` over the
walked tree.  A `Fatal` from any file aborts the batch. -/
def collectPass (cfg : Config) (fs : FS) (parseFn : String → Except String PyModule) :
    List WalkEntry → GState → Except Fatal GState
  | [], g => .ok g
  | e :: rest, g =>
    match collectFiles cfg fs parseFn e e.files g with
    | .error err => .error err
    | .ok g' => collectPass cfg fs parseFn rest g'

/-! ### Set-operation lemmas -/

theorem mem_insertS {xs : List String} {x y : String} :
    x ∈ insertS xs y ↔ x ∈ xs ∨ x = y := by
  by_cases h : y ∈ xs
  · simp only [insertS, if_pos h]
    exact ⟨Or.inl, fun hx => hx.elim id (fun e => e ▸ h)⟩
  · simp [insertS, if_neg h]

theorem nodup_insertS {xs : List String} {y : String} (h : xs.Nodup) :
    (insertS xs y).Nodup := by
  by_cases hy : y ∈ xs
  · simpa [insertS, hy] using h
  · rw [insertS, if_neg hy]
    refine List.Nodup.append h (List.nodup_singleton y) ?_
    intro a ha hb
    rw [List.mem_singleton] at hb
    exact hy (hb ▸ ha)

theorem mem_unionS {xs ys : List String} {x : String} :
    x ∈ unionS xs ys ↔ x ∈ xs ∨ x ∈ ys := by
  induction ys generalizing xs with
  | nil => simp [unionS]
  | cons y ys ih =>
    have h : unionS xs (y :: ys) = unionS (insertS xs y) ys := rfl
    rw [h, ih, mem_insertS, List.mem_cons]
    tauto

theorem nodup_unionS {xs ys : List String} (h : xs.Nodup) : (unionS xs ys).Nodup := by
  induction ys generalizing xs with
  | nil => exact h
  | cons y ys ih => exact ih (nodup_insertS h)

theorem mem_removeS {xs : List String} {x y : String} :
    x ∈ removeS xs y ↔ x ∈ xs ∧ x ≠ y := by
  simp [removeS, List.mem_filter]

theorem nodup_removeS {xs : List String} {y : String} (h : xs.Nodup) :
    (removeS xs y).Nodup :=
  List.Nodup.filter _ h

theorem mem_diffS {xs ys : List String} {x : String} :
    x ∈ diffS xs ys ↔ x ∈ xs ∧ x ∉ ys := by
  simp [diffS, List.mem_filter]

theorem nodup_diffS {xs ys : List String} (h : xs.Nodup) : (diffS xs ys).Nodup :=
  List.Nodup.filter _ h

theorem diffS_nil (xs : List String) : diffS xs [] = xs :=
  List.filter_eq_self.mpr (fun a _ => by simp)

theorem mem_dedupS {xs : List String} {x : String} : x ∈ dedupS xs ↔ x ∈ xs := by
  have h : dedupS xs = unionS [] xs := rfl
  rw [h, mem_unionS]
  simp

theorem nodup_dedupS (xs : List String) : (dedupS xs).Nodup :=
  nodup_unionS List.nodup_nil

theorem mem_insertSorted {x y : String} {l : List String} :
    y ∈ insertSorted x l ↔ y = x ∨ y ∈ l := by
  induction l with
  | nil => simp [insertSorted]
  | cons z zs ih =>
    rw [insertSorted]
    split
    · simp [List.mem_cons]
    · rw [List.mem_cons, ih, List.mem_cons]
      tauto

theorem mem_sortS {x : String} {l : List String} : x ∈ sortS l ↔ x ∈ l := by
  induction l with
  | nil => simp [sortS]
  | cons y ys ih =>
    have h : sortS (y :: ys) = insertSorted y (sortS ys) := rfl
    rw [h, mem_insertSorted, ih, List.mem_cons]

/-! ### Required-set lemmas -/

theorem names1Step_eq (fs : FS) (p : String) (acc : List String × List (String × String))
    (nm : String) :
    names1Step fs p acc nm =
      if shadowB fs p nm then (acc.1, acc.2 ++ [(p, nm)])
      else (insertS acc.1 nm, acc.2) := by
  cases h1 : strEndsWith p slashDunderInit <;>
    simp [names1Step, shadowB, h1]

theorem foldl_names1Step_fst {fs : FS} {p : String} {l : List String}
    {acc : List String × List (String × String)} {x : String} :
    x ∈ (l.foldl (names1Step fs p) acc).1 ↔
      x ∈ acc.1 ∨ (x ∈ l ∧ shadowB fs p x = false) := by
  induction l generalizing acc with
  | nil => simp
  | cons nm rest ih =>
    rw [List.foldl_cons, ih, names1Step_eq]
    by_cases h : shadowB fs p nm = true
    · rw [if_pos h]
      constructor
      · rintro (hx | ⟨hr, hs⟩)
        · exact Or.inl hx
        · exact Or.inr ⟨List.mem_cons_of_mem _ hr, hs⟩
      · rintro (hx | ⟨hm, hs⟩)
        · exact Or.inl hx
        · rcases List.mem_cons.mp hm with rfl | hr
          · rw [h] at hs
            cases hs
          · exact Or.inr ⟨hr, hs⟩
    · rw [if_neg h]
      have h' : shadowB fs p nm = false := by
        cases hb : shadowB fs p nm
        · rfl
        · exact absurd hb h
      constructor
      · rintro (hx | ⟨hr, hs⟩)
        · rcases mem_insertS.mp hx with hx' | rfl
          · exact Or.inl hx'
          · exact Or.inr ⟨List.mem_cons_self _ _, h'⟩
        · exact Or.inr ⟨List.mem_cons_of_mem _ hr, hs⟩
      · rintro (hx | ⟨hm, hs⟩)
        · exact Or.inl (mem_insertS.mpr (Or.inl hx))
        · rcases List.mem_cons.mp hm with rfl | hr
          · exact Or.inl (mem_insertS.mpr (Or.inr rfl))
          · exact Or.inr ⟨hr, hs⟩

theorem foldl_names1Step_nodup {fs : FS} {p : String} {l : List String}
    {acc : List String × List (String × String)} (h : acc.1.Nodup) :
    ((l.foldl (names1Step fs p) acc).1).Nodup := by
  induction l generalizing acc with
  | nil => exact h
  | cons nm rest ih =>
    rw [List.foldl_cons, names1Step_eq]
    by_cases hs : shadowB fs p nm = true
    · rw [if_pos hs]
      exact ih h
    · rw [if_neg hs]
      exact ih (nodup_insertS h)

theorem getD_nil_of_not_truthy {o : Option (List String)} (h : truthy o = false) :
    o.getD [] = [] := by
  cases o with
  | none => rfl
  | some l =>
    cases l with
    | nil => rfl
    | cons a as => simp [truthy] at h

theorem mem_requiredSet {fs : FS} {p : String} {allCur : List String}
    {n1 n2 : Option (List String)} {x : String} :
    x ∈ (requiredSet fs p allCur n1 n2).1 ↔
      ((x ∈ allCur ∨ (x ∈ n1.getD [] ∧ shadowB fs p x = false) ∨ x ∈ n2.getD []) ∧
        x ≠ "*") := by
  simp only [requiredSet]
  cases h1 : truthy n1 <;> cases h2 : truthy n2 <;>
    simp only [Bool.false_eq_true, if_false, if_true, mem_removeS, mem_unionS,
      foldl_names1Step_fst]
  · rw [getD_nil_of_not_truthy h1, getD_nil_of_not_truthy h2]
    simp
  · rw [getD_nil_of_not_truthy h1]
    simp
  · rw [getD_nil_of_not_truthy h2]
    simp
  · tauto

theorem nodup_requiredSet {fs : FS} {p : String} {allCur : List String}
    {n1 n2 : Option (List String)} (h : allCur.Nodup) :
    ((requiredSet fs p allCur n1 n2).1).Nodup := by
  simp only [requiredSet]
  apply nodup_removeS
  cases h2 : truthy n2 <;> simp only [Bool.false_eq_true, if_false, if_true]
  · cases h1 : truthy n1 <;> simp only [Bool.false_eq_true, if_false, if_true]
    · exact h
    · exact foldl_names1Step_nodup h
  · apply nodup_unionS
    cases h1 : truthy n1 <;> simp only [Bool.false_eq_true, if_false, if_true]
    · exact h
    · exact foldl_names1Step_nodup h

/-! ### Filesystem and candidate-set lemmas -/

theorem readFile_writeFile_ne {fs : FS} {p q : String} {t : String} (h : q ≠ p) :
    (fs.writeFile p t).readFile q = fs.readFile q := by
  show findRead (updateFiles fs.files p t) q = findRead fs.files q
  induction fs.files with
  | nil =>
    have hpq : ¬(p = q) := fun e => h e.symm
    simp [updateFiles, findRead, hpq]
  | cons kv rest ih =>
    obtain ⟨k, r⟩ := kv
    by_cases hk : k = p
    · subst hk
      have hpq : ¬(k = q) := fun e => h e.symm
      simp [updateFiles, findRead, hpq]
    · by_cases hq : k = q
      · subst hq
        simp [updateFiles, findRead, hk]
      · simp [updateFiles, findRead, hk, hq, ih]

theorem mem_foldl_insert_fst {imp : List (String × List String)}
    {acc : List String} {x : String} :
    x ∈ imp.foldl (fun acc kv => insertS acc kv.1) acc ↔
      x ∈ acc ∨ ∃ l, (x, l) ∈ imp := by
  induction imp generalizing acc with
  | nil => simp
  | cons kv rest ih =>
    obtain ⟨k, v⟩ := kv
    rw [List.foldl_cons, ih, mem_insertS]
    constructor
    · rintro (⟨hx | rfl⟩ | ⟨l, hl⟩)
      · exact Or.inl hx
      · exact Or.inr ⟨v, List.mem_cons_self _ _⟩
      · exact Or.inr ⟨l, List.mem_cons_of_mem _ hl⟩
    · rintro (hx | ⟨l, hl⟩)
      · exact Or.inl (Or.inl hx)
      · rcases List.mem_cons.mp hl with he | hr
        · injection he with h1 h2
          exact Or.inl (Or.inr h1)
        · exact Or.inr ⟨l, hr⟩

theorem mem_foldl_attr {ap : List (String × Option String)}
    {acc : List String} {x : String} :
    x ∈ ap.foldl
        (fun acc pr =>
          match pr.2 with
          | none => acc
          | some fp => insertS acc fp) acc ↔
      x ∈ acc ∨ ∃ a, (a, some x) ∈ ap := by
  induction ap generalizing acc with
  | nil => simp
  | cons pr rest ih =>
    obtain ⟨a, o⟩ := pr
    cases o with
    | none =>
      rw [List.foldl_cons]
      show x ∈ rest.foldl _ acc ↔ _
      rw [ih]
      constructor
      · rintro (hx | ⟨b, hb⟩)
        · exact Or.inl hx
        · exact Or.inr ⟨b, List.mem_cons_of_mem _ hb⟩
      · rintro (hx | ⟨b, hb⟩)
        · exact Or.inl hx
        · rcases List.mem_cons.mp hb with he | hr
          · injection he with h1 h2
            cases h2
          · exact Or.inr ⟨b, hr⟩
    | some fp =>
      rw [List.foldl_cons]
      show x ∈ rest.foldl _ (insertS acc fp) ↔ _
      rw [ih, mem_insertS]
      constructor
      · rintro (⟨hx | rfl⟩ | ⟨b, hb⟩)
        · exact Or.inl hx
        · exact Or.inr ⟨a, List.mem_cons_self _ _⟩
        · exact Or.inr ⟨b, List.mem_cons_of_mem _ hb⟩
      · rintro (hx | ⟨b, hb⟩)
        · exact Or.inl (Or.inl hx)
        · rcases List.mem_cons.mp hb with he | hr
          · injection he with h1 h2
            injection h2 with h3
            exact Or.inl (Or.inr h3)
          · exact Or.inr ⟨b, hr⟩

theorem mem_toCheck {imp : List (String × List String)}
    {ap : List (String × Option String)} {x : String} :
    x ∈ toCheckImportedModules imp ap ↔
      (∃ l, (x, l) ∈ imp) ∨ ∃ a, (a, some x) ∈ ap := by
  rw [toCheckImportedModules]
  rw [mem_foldl_attr, mem_foldl_insert_fst]
  simp

theorem nodup_length_lt {l₁ l₂ : List String} (h₁ : l₁.Nodup)
    (hsub : ∀ x ∈ l₁, x ∈ l₂) (hex : ∃ y, y ∈ l₂ ∧ y ∉ l₁) :
    l₁.length < l₂.length := by
  obtain ⟨y, hy2, hy1⟩ := hex
  have hnd : (y :: l₁).Nodup := List.nodup_cons.mpr ⟨hy1, h₁⟩
  have hsub' : (y :: l₁) ⊆ l₂ := by
    intro a ha
    rcases List.mem_cons.mp ha with rfl | ha'
    · exact hy2
    · exact hsub a ha'
  have := (List.subperm_of_subset hnd hsub').length_le
  simpa using Nat.lt_of_lt_of_le (Nat.lt_succ_self _) this

/-! ### Reconciler step and pass lemmas -/

theorem step_hasAll_no_write {cfg : Config} {parseFn : String → Except String PyModule}
    {fs : FS} {importedFromBy attrBy : List (String × List String)} {p text : String}
    {code : PyModule} {decl : List String}
    (hr : fs.readFile p = .ok text) (hp : parseFn text = .ok code)
    (hf : find__all__ code.body = .ok (some decl)) :
    ∃ out, reconcileStep cfg parseFn fs importedFromBy attrBy p = .ok out ∧
      out.newText = none ∧ out.modified = false := by
  simp only [reconcileStep, hr]
  by_cases hx : cfg.isExcluded p = true
  · rw [if_pos hx]
    exact ⟨_, rfl, rfl, rfl⟩
  · rw [if_neg hx]
    by_cases ht : cfg.excludeToplevel.contains ((splitOnChar '/' p).headD "") = true
    · rw [if_pos ht]
      exact ⟨_, rfl, rfl, rfl⟩
    · rw [if_neg ht]
      simp only [hp, hf, Option.isSome_some, Option.getD_some, if_true]
      by_cases he : (requiredSet fs p (dedupS decl) (lookupA importedFromBy p)
          (lookupA attrBy p)).1.isEmpty = true
      · rw [if_pos he]
        exact ⟨_, rfl, rfl, rfl⟩
      · rw [if_neg he]
        by_cases hl : (requiredSet fs p (dedupS decl) (lookupA importedFromBy p)
            (lookupA attrBy p)).1.length = (dedupS decl).length
        · rw [if_pos hl]
          exact ⟨_, rfl, rfl, rfl⟩
        · rw [if_neg hl]
          exact ⟨_, rfl, rfl, rfl⟩

theorem pass_no_write {cfg : Config} {parseFn : String → Except String PyModule}
    {importedFromBy attrBy : List (String × List String)} {fs : FS}
    {cands : List String}
    (h : ∀ p ∈ cands, ∃ text code decl, fs.readFile p = .ok text ∧
      parseFn text = .ok code ∧ find__all__ code.body = .ok (some decl)) :
    ∃ po, reconcilePass cfg parseFn importedFromBy attrBy fs cands = .ok po ∧
      po.fs = fs ∧ po.modifiedFiles = [] := by
  induction cands with
  | nil => exact ⟨_, rfl, rfl, rfl⟩
  | cons c rest ih =>
    obtain ⟨text, code, decl, hr, hp, hf⟩ := h c (List.mem_cons_self _ _)
    obtain ⟨out, hstep, hnt, hnm⟩ :=
      @step_hasAll_no_write cfg parseFn fs importedFromBy attrBy c text code decl
        hr hp hf
    obtain ⟨po, hpass, hfs, hmod⟩ := ih (fun q hq => h q (List.mem_cons_of_mem _ hq))
    have hcons : reconcilePass cfg parseFn importedFromBy attrBy fs (c :: rest) =
        .ok ⟨po.fs, (if out.modified then [c] else []) ++ po.modifiedFiles,
          out.reports ++ po.reports, out.diags ++ po.diags,
          out.skipped ++ po.skipAllAdd, out.reads ++ po.reads⟩ := by
      simp only [reconcilePass, hstep, hnt, hpass]
    exact ⟨_, hcons, hfs, by simp [hnm, hmod]⟩

theorem path_of_mem_stepReports1 {r : Report} {p : String} {allOpt : Option (List String)}
    {importedFromBy attrBy : List (String × List String)}
    (h : r ∈ stepReports1 p allOpt importedFromBy attrBy) : r.path = p := by
  rw [stepReports1] at h
  split at h
  · obtain ⟨s, _, rfl⟩ := List.mem_map.mp h
    rfl
  · cases h

theorem step_paths {cfg : Config} {parseFn : String → Except String PyModule}
    {fs : FS} {importedFromBy attrBy : List (String × List String)} {c : String}
    {out : StepOut}
    (h : reconcileStep cfg parseFn fs importedFromBy attrBy c = .ok out) :
    (∀ q ∈ out.reads, q = c) ∧ (∀ r ∈ out.reports, r.path = c) ∧
      (∀ r ∈ out.diags, r.path = c) := by
  unfold reconcileStep at h
  repeat' split at h
  any_goals exact Except.noConfusion h
  all_goals injection h with h'
  all_goals subst h'
  all_goals refine ⟨?_, ?_, ?_⟩
  all_goals intro r hr
  all_goals simp only [List.mem_cons, List.mem_singleton, List.mem_append,
    List.not_mem_nil, or_false, false_or] at hr
  all_goals try cases hr
  all_goals try (first
    | rfl
    | exact path_of_mem_stepReports1 hr
    | (rename_i hmem; exact path_of_mem_stepReports1 hmem)
    | (rename_i heq; subst heq; rfl))

theorem pass_untouched {cfg : Config} {parseFn : String → Except String PyModule}
    {importedFromBy attrBy : List (String × List String)} {fs : FS}
    {cands : List String} {p : String} {po : PassOut}
    (hp : p ∉ cands)
    (h : reconcilePass cfg parseFn importedFromBy attrBy fs cands = .ok po) :
    po.fs.readFile p = fs.readFile p ∧ p ∉ po.modifiedFiles ∧ p ∉ po.reads ∧
      (∀ r ∈ po.reports, r.path ≠ p) ∧ (∀ r ∈ po.diags, r.path ≠ p) := by
  induction cands generalizing fs po with
  | nil =>
    simp only [reconcilePass] at h
    injection h with h'
    subst h'
    simp
  | cons c rest ih =>
    have hpc : p ≠ c := fun e => hp (e ▸ List.mem_cons_self c rest)
    have hpr : p ∉ rest := fun hr => hp (List.mem_cons_of_mem _ hr)
    simp only [reconcilePass] at h
    cases hstep : reconcileStep cfg parseFn fs importedFromBy attrBy c with
    | error e =>
      rw [hstep] at h
      exact Except.noConfusion h
    | ok out =>
      simp only [hstep] at h
      obtain ⟨hreads, hreports, hdiags⟩ := step_paths hstep
      cases hnt : out.newText with
      | none =>
        simp only [hnt] at h
        cases hpass : reconcilePass cfg parseFn importedFromBy attrBy fs rest with
        | error e =>
          simp only [hpass] at h
          exact Except.noConfusion h
        | ok po' =>
          simp only [hpass] at h
          injection h with h'
          subst h'
          obtain ⟨h1, h2, h3, h4, h5⟩ := ih hpr hpass
          refine ⟨h1, ?_, ?_, ?_, ?_⟩
          · intro hm
            rcases List.mem_append.mp hm with hm | hm
            · split at hm
              · exact hpc (List.mem_singleton.mp hm)
              · cases hm
            · exact h2 hm
          · intro hm
            rcases List.mem_append.mp hm with hm | hm
            · exact hpc (hreads p hm)
            · exact h3 hm
          · intro r hr
            rcases List.mem_append.mp hr with hr | hr
            · exact fun e => hpc (e ▸ (hreports r hr).symm).symm
            · exact h4 r hr
          · intro r hr
            rcases List.mem_append.mp hr with hr | hr
            · exact fun e => hpc (e ▸ (hdiags r hr).symm).symm
            · exact h5 r hr
      | some t =>
        simp only [hnt] at h
        cases hpass : reconcilePass cfg parseFn importedFromBy attrBy
            (fs.writeFile c t) rest with
        | error e =>
          simp only [hpass] at h
          exact Except.noConfusion h
        | ok po' =>
          simp only [hpass] at h
          injection h with h'
          subst h'
          obtain ⟨h1, h2, h3, h4, h5⟩ := ih hpr hpass
          refine ⟨?_, ?_, ?_, ?_, ?_⟩
          · rw [h1]
            exact readFile_writeFile_ne hpc
          · intro hm
            rcases List.mem_append.mp hm with hm | hm
            · split at hm
              · exact hpc (List.mem_singleton.mp hm)
              · cases hm
            · exact h2 hm
          · intro hm
            rcases List.mem_append.mp hm with hm | hm
            · exact hpc (hreads p hm)
            · exact h3 hm
          · intro r hr
            rcases List.mem_append.mp hr with hr | hr
            · exact fun e => hpc (e ▸ (hreports r hr).symm).symm
            · exact h4 r hr
          · intro r hr
            rcases List.mem_append.mp hr with hr | hr
            · exact fun e => hpc (e ▸ (hdiags r hr).symm).symm
            · exact h5 r hr

theorem contains_eq_false_of_not_mem {l : List String} {x : String} (h : x ∉ l) :
    l.contains x = false := by
  cases hc : l.contains x
  · rfl
  · exact absurd (List.mem_of_elem_eq_true hc) h

theorem moduleFilePath_cons {cfg : Config} {fs : FS}
    {module dirPathRel : String} {subDirs files : List String} {silent : Bool}
    {main : String} {rest : List String}
    (hm : module ≠ "") (hsp : splitOnChar '.' module = main :: rest) :
    moduleFilePath cfg fs module dirPathRel subDirs files silent =
      (if cfg.stdlibNames.contains main = true then ⟨none, false⟩
      else if cfg.excludeToplevel.contains main = true then ⟨none, false⟩
      else if fs.isDir (candidatePath dirPathRel subDirs files (main :: rest)) = true then
        if fs.isFile (joinParts
            [candidatePath dirPathRel subDirs files (main :: rest), "__init__.py"]) = true then
          ⟨some (joinParts
            [candidatePath dirPathRel subDirs files (main :: rest), "__init__.py"]), false⟩
        else ⟨none, false⟩
      else if fs.isFile
          (candidatePath dirPathRel subDirs files (main :: rest) ++ ".py") = true then
        ⟨some (candidatePath dirPathRel subDirs files (main :: rest) ++ ".py"), false⟩
      else ⟨none, !silent⟩) := by
  rw [moduleFilePath, if_neg hm, hsp]

/-! ### Claim theorems -/

/-- C8: for every reference whose first dotted component names a
standard-library module or a top-level module excluded by configuration,
resolution returns unresolved with no diagnostic, regardless of the sibling
listings, the tree contents, and the silent flag. -/
theorem c8_stdlib_or_excluded_unresolved (cfg : Config) (fs : FS)
    (module dirPathRel : String) (subDirs files : List String) (silent : Bool)
    (h : (splitOnChar '.' module).headD "" ∈ cfg.stdlibNames ∨
      (splitOnChar '.' module).headD "" ∈ cfg.excludeToplevel) :
    moduleFilePath cfg fs module dirPathRel subDirs files silent =
      ⟨none, false⟩ := by
  by_cases hm : module = ""
  · rw [moduleFilePath, if_pos hm]
  · cases hsp : splitOnChar '.' module with
    | nil => rw [moduleFilePath, if_neg hm, hsp]
    | cons main rest =>
      rw [moduleFilePath_cons hm hsp]
      rw [hsp] at h
      simp only [List.headD_cons] at h
      rcases h with h | h
      · rw [if_pos (List.elem_eq_true_of_mem h)]
      · by_cases h1 : cfg.stdlibNames.contains main = true
        · rw [if_pos h1]
        · rw [if_neg h1, if_pos (List.elem_eq_true_of_mem h)]

/-- Witness for C8: `os.path` with `os` a standard-library name stays
unresolved and silent even though a sibling file `os.py` and a sibling
directory `os` exist. -/
theorem c8_witness :
    moduleFilePath ⟨["os", "sys"], [], fun _ => false, ""⟩
      ⟨["os"], [("os.py", .ok "x")]⟩ "os.path" "" ["os"] ["os.py"] false =
      ⟨none, false⟩ :=
  c8_stdlib_or_excluded_unresolved _ _ _ _ _ _ _ (Or.inl (by decide))

/-- C10: when the candidate relative path is an existing directory without a
package-init file, resolution returns unresolved with no diagnostic even with
the silent flag unset, and even though the path-plus-`.py` candidate exists
on disk (it is never tried). -/
theorem c10_dir_without_init_unresolved_silent (cfg : Config) (fs : FS)
    (module dirPathRel : String) (subDirs files : List String)
    (main : String) (rest : List String)
    (hsp : splitOnChar '.' module = main :: rest)
    (hm : module ≠ "")
    (h1 : main ∉ cfg.stdlibNames) (h2 : main ∉ cfg.excludeToplevel)
    (hdir : fs.isDir (candidatePath dirPathRel subDirs files (main :: rest)) = true)
    (hinit : fs.isFile (joinParts
      [candidatePath dirPathRel subDirs files (main :: rest), "__init__.py"]) = false)
    (hpy : fs.isFile
      (candidatePath dirPathRel subDirs files (main :: rest) ++ ".py") = true) :
    moduleFilePath cfg fs module dirPathRel subDirs files false = ⟨none, false⟩ := by
  rw [moduleFilePath_cons hm hsp]
  rw [if_neg (by rw [contains_eq_false_of_not_mem h1]; exact Bool.false_ne_true)]
  rw [if_neg (by rw [contains_eq_false_of_not_mem h2]; exact Bool.false_ne_true)]
  rw [if_pos hdir, if_neg (by rw [hinit]; exact Bool.false_ne_true)]

/-- Witness for C10: `d` is a directory with no `d/__init__.py`, while `d.py`
also exists; resolution is unresolved and diagnostic-free. -/
theorem c10_witness :
    moduleFilePath ⟨[], [], fun _ => false, ""⟩ ⟨["d"], [("d.py", .ok "x")]⟩
      "d" "" [] [] false = ⟨none, false⟩ :=
  c10_dir_without_init_unresolved_silent _ _ _ _ _ _ "d" [] (by decide) (by decide)
    (by decide) (by decide) (by decide) (by decide) (by decide)

/-- C6 counterexample: resolving `d` where `d` is an existing directory
without a package-init file.  The reference is nonempty, its first component
is neither standard-library nor excluded, the silent flag is unset and the
result is unresolved, yet no diagnostic is emitted — refuting the claim that
every non-silent unresolved call of this shape emits one. -/
theorem c6_counterexample :
    moduleFilePath ⟨[], [], fun _ => false, ""⟩ ⟨["d"], []⟩ "d" "" [] [] false =
      ⟨none, false⟩ ∧
    ("d" : String) ≠ "" ∧
    (splitOnChar '.' "d").headD "" ∉ ([] : List String) := by
  decide

/-- C6 amended: an unresolved, non-silent resolver call whose reference is
nonempty with a first component that is neither standard-library nor
configuration-excluded emits a diagnostic, provided the candidate relative
path is not an existing directory (an existing directory without a
package-init file returns unresolved silently). -/
theorem c6_unresolved_nonsilent_diagnostic (cfg : Config) (fs : FS)
    (module dirPathRel : String) (subDirs files : List String)
    (main : String) (rest : List String)
    (hsp : splitOnChar '.' module = main :: rest)
    (hm : module ≠ "")
    (h1 : main ∉ cfg.stdlibNames) (h2 : main ∉ cfg.excludeToplevel)
    (hdir : fs.isDir (candidatePath dirPathRel subDirs files (main :: rest)) = false)
    (hres : (moduleFilePath cfg fs module dirPathRel subDirs files false).result =
      none) :
    (moduleFilePath cfg fs module dirPathRel subDirs files false).diagnostic =
      true := by
  rw [moduleFilePath_cons hm hsp] at hres ⊢
  rw [if_neg (by rw [contains_eq_false_of_not_mem h1]; exact Bool.false_ne_true)] at hres ⊢
  rw [if_neg (by rw [contains_eq_false_of_not_mem h2]; exact Bool.false_ne_true)] at hres ⊢
  rw [if_neg (by rw [hdir]; exact Bool.false_ne_true)] at hres ⊢
  by_cases hpy : fs.isFile
      (candidatePath dirPathRel subDirs files (main :: rest) ++ ".py") = true
  · rw [if_pos hpy] at hres
    exact Option.noConfusion hres
  · rw [if_neg hpy]
    rfl

/-- Witness for the amended C6: a reference matching nothing on disk, with
the silent flag unset, gets a diagnostic. -/
theorem c6_witness :
    (moduleFilePath ⟨[], [], fun _ => false, ""⟩ ⟨[], []⟩ "nosuch" "" [] []
      false).diagnostic = true :=
  c6_unresolved_nonsilent_diagnostic _ _ _ _ _ _ "nosuch" [] (by decide) (by decide)
    (by decide) (by decide) (by decide) (by decide)

/-- C2 counterexample: a module file containing two well-formed top-level
`__all__` assignments.  The scan returns the first list without error and the
reconciliation run over this file completes — refuting the claim that more
than one export-list assignment is fatal to the run. -/
theorem c2_counterexample :
    find__all__ [PyNode.assign [.name "__all__"] (.listLit [.constant "a"]),
      PyNode.assign [.name "__all__"] (.listLit [.constant "b"])] =
      .ok (some ["a"]) ∧
    (reconcilePass ⟨[], [], fun _ => false, ""⟩
      (fun _ => .ok ⟨[PyNode.assign [.name "__all__"] (.listLit [.constant "a"]),
        PyNode.assign [.name "__all__"] (.listLit [.constant "b"])]⟩)
      [("m.py", ["a"])] [] ⟨[], [("m.py", .ok "t")]⟩ ["m.py"]).isOk = true := by
  exact ⟨rfl, rfl⟩

/-- C2 amended: the structural error is fatal to the whole run only when the
scan actually trips an assert — the first top-level `__all__` assignment
found has a non-list value, a non-constant element, or extra targets.  A file
with several well-formed `__all__` assignments is not an error (the first one
is used). -/
theorem c2_malformed_export_list_fatal (cfg : Config)
    (parseFn : String → Except String PyModule) (fs : FS)
    (importedFromBy attrBy : List (String × List String)) (p text : String)
    (code : PyModule) (rest : List String)
    (hr : fs.readFile p = .ok text)
    (hx : cfg.isExcluded p = false)
    (ht : ¬ cfg.excludeToplevel.contains ((splitOnChar '/' p).headD "") = true)
    (hp : parseFn text = .ok code)
    (hf : find__all__ code.body = .error ()) :
    reconcilePass cfg parseFn importedFromBy attrBy fs (p :: rest) =
      .error (.malformedAll p) := by
  have hstep : reconcileStep cfg parseFn fs importedFromBy attrBy p =
      .error (.malformedAll p) := by
    simp only [reconcileStep, hr]
    rw [if_neg (by rw [hx]; exact Bool.false_ne_true), if_neg ht]
    simp only [hp, hf]
  simp only [reconcilePass, hstep]

/-- Witness for the amended C2: `__all__ = "x"` (a non-list value) aborts the
run over its file. -/
theorem c2_witness :
    reconcilePass ⟨[], [], fun _ => false, ""⟩
      (fun _ => .ok ⟨[PyNode.assign [.name "__all__"] (.constant "x")]⟩)
      [("m.py", ["a"])] [] ⟨[], [("m.py", .ok "t")]⟩ ["m.py"] =
      .error (.malformedAll "m.py") :=
  c2_malformed_export_list_fatal _ _ _ _ _ "m.py" "t" _ [] rfl rfl (by decide) rfl rfl

/-- C3 counterexample: `pkg/__init__.py` is a package-init file and `c`
denotes the existing sibling submodule `pkg/c.py`, yet because `c` reaches
the file only through attribute access, the reconciler still synthesizes
an export list containing exactly `c` and rewrites the file — refuting the
claim that every shadowed required name is excluded. -/
theorem c3_counterexample :
    FS.isFile ⟨["pkg"], [("pkg/__init__.py", .ok "body"), ("pkg/c.py", .ok "")]⟩
      "pkg/c.py" = true ∧
    strEndsWith "pkg/__init__.py" slashDunderInit = true ∧
    reconcileStep ⟨[], [], fun _ => false, ""⟩ (fun _ => .ok ⟨[]⟩)
      ⟨["pkg"], [("pkg/__init__.py", .ok "body"), ("pkg/c.py", .ok "")]⟩
      [] [("pkg/__init__.py", ["c"])] "pkg/__init__.py" =
      .ok ⟨["pkg/__init__.py", "pkg/__init__.py"],
        some (exportDeclLine ["c"] ++ "\n" ++ "body"), true, [], [], []⟩ := by
  exact ⟨rfl, rfl, rfl⟩

/-- C3 amended: the package-shadow exception filters only the from-imported
names: a from-imported name of a package-init candidate that denotes an
existing sibling submodule file or subpackage directory is excluded from the
required set — and hence from the synthesized or suggested additions —
provided it is not also a declared name or an attribute-accessed name
(attribute-accessed names are never filtered by the exception). -/
theorem c3_shadowed_import_excluded (fs : FS) (p : String)
    (allOpt : Option (List String))
    (importedFromBy attrBy : List (String × List String)) (nm : String)
    (h1 : nm ∈ (lookupA importedFromBy p).getD [])
    (hsh : shadowB fs p nm = true)
    (hc : nm ∉ dedupS (allOpt.getD []))
    (h2 : nm ∉ (lookupA attrBy p).getD []) :
    nm ∉ (requiredSet fs p (dedupS (allOpt.getD [])) (lookupA importedFromBy p)
        (lookupA attrBy p)).1 ∧
      nm ∉ stepAddList fs p allOpt importedFromBy attrBy := by
  have hreq : nm ∉ (requiredSet fs p (dedupS (allOpt.getD []))
      (lookupA importedFromBy p) (lookupA attrBy p)).1 := by
    intro hmem
    rcases (mem_requiredSet.mp hmem).1 with h | ⟨_, hfalse⟩ | h
    · exact hc h
    · rw [hsh] at hfalse
      cases hfalse
    · exact h2 h
  exact ⟨hreq, fun hmem => hreq (mem_diffS.mp hmem).1⟩

/-- Witness for the amended C3: the from-imported name `sub` of
`pkg/__init__.py` shadows the sibling `pkg/sub.py` and stays out of the
required set. -/
theorem c3_witness :
    "sub" ∉ (requiredSet ⟨[], [("pkg/sub.py", .ok "")]⟩ "pkg/__init__.py"
        (dedupS ((none : Option (List String)).getD []))
        (lookupA [("pkg/__init__.py", ["sub"])] "pkg/__init__.py")
        (lookupA [] "pkg/__init__.py")).1 ∧
      "sub" ∉ stepAddList ⟨[], [("pkg/sub.py", .ok "")]⟩ "pkg/__init__.py" none
        [("pkg/__init__.py", ["sub"])] [] :=
  c3_shadowed_import_excluded _ _ none _ _ "sub" (by decide) (by decide)
    (by decide) (by decide)

theorem unused_mem_stepReports1 {p s : String} {decl : List String}
    {importedFromBy attrBy : List (String × List String)}
    (h : s ∈ diffS (dedupS decl)
      (usedNames (lookupA importedFromBy p) (lookupA attrBy p))) :
    Report.unusedSymbol p s ∈ stepReports1 p (some decl) importedFromBy attrBy := by
  rw [stepReports1]
  simp only [Option.isSome_some, if_true, Option.getD_some]
  exact List.mem_map_of_mem _ (mem_sortS.mpr h)

/-- C4 counterexample: `pkg/__init__.py` declares `__all__ = ["*"]` and is
from-imported only with the name `sub`, which shadows the sibling
`pkg/sub.py`.  The declared name `*` is absent from the used names, but the
post-filter required set is empty, so the loop skips the file before the
unused-symbol reporting: no unused report is emitted — refuting the claim
that every declared name absent from the usage union is reported. -/
theorem c4_counterexample :
    find__all__ [PyNode.assign [.name "__all__"] (.listLit [.constant "*"])] =
      .ok (some ["*"]) ∧
    ("*" : String) ∉ (["sub"] : List String) ∧
    reconcileStep ⟨[], [], fun _ => false, ""⟩
      (fun _ => .ok ⟨[PyNode.assign [.name "__all__"] (.listLit [.constant "*"])]⟩)
      ⟨["pkg"], [("pkg/__init__.py", .ok "b"), ("pkg/sub.py", .ok "")]⟩
      [("pkg/__init__.py", ["sub"])] [] "pkg/__init__.py" =
      .ok ⟨["pkg/__init__.py"], none, false, [], [],
        [("pkg/__init__.py", "sub")]⟩ := by
  exact ⟨rfl, by decide, rfl⟩

/-- C4 amended: a candidate module file with a declared export list is never
rewritten, and — provided the post-filter required set is non-empty (when it
is empty the file is skipped with no reports) — every declared name absent
from the used names is reported as an unused declared symbol, and when the
required set strictly exceeds the declared set the missing names are reported
as a manual-add suggestion instead of a rewrite. -/
theorem c4_declared_list_never_rewritten (cfg : Config)
    (parseFn : String → Except String PyModule) (fs : FS)
    (importedFromBy attrBy : List (String × List String)) (p text : String)
    (code : PyModule) (decl : List String)
    (hr : fs.readFile p = .ok text)
    (hx : cfg.isExcluded p = false)
    (ht : ¬ cfg.excludeToplevel.contains ((splitOnChar '/' p).headD "") = true)
    (hp : parseFn text = .ok code)
    (hf : find__all__ code.body = .ok (some decl))
    (hne : (requiredSet fs p (dedupS decl) (lookupA importedFromBy p)
      (lookupA attrBy p)).1 ≠ []) :
    ∃ out, reconcileStep cfg parseFn fs importedFromBy attrBy p = .ok out ∧
      out.newText = none ∧ out.modified = false ∧
      (∀ s, s ∈ dedupS decl →
        s ∉ usedNames (lookupA importedFromBy p) (lookupA attrBy p) →
        Report.unusedSymbol p s ∈ out.reports) ∧
      ((∀ x ∈ dedupS decl, x ∈ (requiredSet fs p (dedupS decl)
          (lookupA importedFromBy p) (lookupA attrBy p)).1) →
        (∃ y, y ∈ (requiredSet fs p (dedupS decl) (lookupA importedFromBy p)
          (lookupA attrBy p)).1 ∧ y ∉ dedupS decl) →
        Report.addSuggestion p (stepAddList fs p (some decl) importedFromBy attrBy)
            ∈ out.reports ∧
          ∀ x, x ∈ stepAddList fs p (some decl) importedFromBy attrBy ↔
            (x ∈ (requiredSet fs p (dedupS decl) (lookupA importedFromBy p)
              (lookupA attrBy p)).1 ∧ x ∉ dedupS decl)) := by
  have he : ¬ (requiredSet fs p (dedupS decl) (lookupA importedFromBy p)
      (lookupA attrBy p)).1.isEmpty = true := by
    simpa [List.isEmpty_iff] using hne
  simp only [reconcileStep, hr]
  rw [if_neg (by rw [hx]; exact Bool.false_ne_true), if_neg ht]
  simp only [hp, hf, Option.isSome_some, Option.getD_some, if_true]
  rw [if_neg he]
  by_cases hl : (requiredSet fs p (dedupS decl) (lookupA importedFromBy p)
      (lookupA attrBy p)).1.length = (dedupS decl).length
  · rw [if_pos hl]
    refine ⟨_, rfl, rfl, rfl, ?_, ?_⟩
    · intro s hs hu
      exact unused_mem_stepReports1 (mem_diffS.mpr ⟨hs, hu⟩)
    · intro hsub hex
      exact absurd hl (Nat.ne_of_gt (nodup_length_lt (nodup_dedupS decl)
        hsub hex))
  · rw [if_neg hl]
    refine ⟨_, rfl, rfl, rfl, ?_, ?_⟩
    · intro s hs hu
      exact List.mem_append_left _ (unused_mem_stepReports1 (mem_diffS.mpr ⟨hs, hu⟩))
    · intro _ _
      refine ⟨List.mem_append_right _ (List.mem_singleton_self _), ?_⟩
      intro x
      rw [stepAddList, Option.getD_some, mem_diffS]

/-- Witness for the amended C4: declared list `["x", "y"]`, from-imports
`{"x", "z"}`: the file is not rewritten, `y` is reported unused, and `z` is
suggested for manual addition. -/
theorem c4_witness :
    ∃ out, reconcileStep ⟨[], [], fun _ => false, ""⟩
        (fun _ => .ok ⟨[PyNode.assign [.name "__all__"]
          (.listLit [.constant "x", .constant "y"])]⟩)
        ⟨[], [("m.py", .ok "t")]⟩ [("m.py", ["x", "z"])] [] "m.py" = .ok out ∧
      out.newText = none ∧ out.modified = false ∧
      (∀ s, s ∈ dedupS ["x", "y"] →
        s ∉ usedNames (lookupA [("m.py", ["x", "z"])] "m.py") (lookupA [] "m.py") →
        Report.unusedSymbol "m.py" s ∈ out.reports) ∧
      ((∀ x ∈ dedupS ["x", "y"],
          x ∈ (requiredSet ⟨[], [("m.py", .ok "t")]⟩ "m.py" (dedupS ["x", "y"])
            (lookupA [("m.py", ["x", "z"])] "m.py") (lookupA [] "m.py")).1) →
        (∃ y, y ∈ (requiredSet ⟨[], [("m.py", .ok "t")]⟩ "m.py" (dedupS ["x", "y"])
            (lookupA [("m.py", ["x", "z"])] "m.py") (lookupA [] "m.py")).1 ∧
          y ∉ dedupS ["x", "y"]) →
        Report.addSuggestion "m.py"
            (stepAddList ⟨[], [("m.py", .ok "t")]⟩ "m.py" (some ["x", "y"])
              [("m.py", ["x", "z"])] []) ∈ out.reports ∧
          ∀ x, x ∈ stepAddList ⟨[], [("m.py", .ok "t")]⟩ "m.py" (some ["x", "y"])
              [("m.py", ["x", "z"])] [] ↔
            (x ∈ (requiredSet ⟨[], [("m.py", .ok "t")]⟩ "m.py" (dedupS ["x", "y"])
              (lookupA [("m.py", ["x", "z"])] "m.py") (lookupA [] "m.py")).1 ∧
              x ∉ dedupS ["x", "y"])) :=
  c4_declared_list_never_rewritten _ _ _ _ _ "m.py" "t" _ ["x", "y"] rfl rfl
    (by decide) rfl rfl (by decide)

theorem readFile_writeFile_self (fs : FS) (p t : String) :
    (fs.writeFile p t).readFile p = .ok t := by
  show findRead (updateFiles fs.files p t) p = .ok t
  induction fs.files with
  | nil => simp [updateFiles, findRead]
  | cons kv rest ih =>
    obtain ⟨k, r⟩ := kv
    by_cases hk : k = p
    · subst hk
      simp [updateFiles, findRead]
    · simp [updateFiles, findRead, hk, ih]

/-- C1: a module file with no declared export list that is from-imported
with name set `{a, b}` and attribute-accessed with name set `{c}`, with no
name under the package-shadow exception: the reconciler synthesizes an
export-list declaration containing exactly `{a, b, c}` (order unspecified),
prepends it to the file's text, rewrites the file in place, and marks the
file modified. -/
theorem c1_roundtrip_synthesis (cfg : Config)
    (parseFn : String → Except String PyModule) (fs : FS)
    (importedFromBy attrBy : List (String × List String)) (p text : String)
    (code : PyModule) (l1 l2 : List String)
    (hr : fs.readFile p = .ok text)
    (hx : cfg.isExcluded p = false)
    (ht : ¬ cfg.excludeToplevel.contains ((splitOnChar '/' p).headD "") = true)
    (hp : parseFn text = .ok code)
    (hf : find__all__ code.body = .ok none)
    (h1 : lookupA importedFromBy p = some l1)
    (hl1 : ∀ x, x ∈ l1 ↔ (x = "a" ∨ x = "b"))
    (h2 : lookupA attrBy p = some l2)
    (hl2 : ∀ x, x ∈ l2 ↔ x = "c")
    (hsh : ∀ n ∈ l1, shadowB fs p n = false) :
    ∃ out addList,
      reconcileStep cfg parseFn fs importedFromBy attrBy p = .ok out ∧
      out.newText = some (exportDeclLine addList ++ "\n" ++ text) ∧
      out.modified = true ∧ addList.Nodup ∧
      (∀ x, x ∈ addList ↔ x ∈ (["a", "b", "c"] : List String)) ∧
      ∃ po, reconcilePass cfg parseFn importedFromBy attrBy fs [p] = .ok po ∧
        po.fs.readFile p = .ok (exportDeclLine addList ++ "\n" ++ text) ∧
        p ∈ po.modifiedFiles := by
  have hmem : ∀ x, x ∈ (requiredSet fs p (dedupS [])
      (lookupA importedFromBy p) (lookupA attrBy p)).1 ↔
      x ∈ (["a", "b", "c"] : List String) := by
    intro x
    rw [h1, h2, mem_requiredSet]
    simp only [Option.getD_some]
    constructor
    · rintro ⟨(h | ⟨hx1, _⟩ | hx2), hne⟩
      · cases h
      · rcases (hl1 x).mp hx1 with rfl | rfl
        · simp
        · simp
      · rw [(hl2 x).mp hx2]
        simp
    · intro hxm
      rcases List.mem_cons.mp hxm with rfl | hxm
      · exact ⟨Or.inr (Or.inl ⟨(hl1 _).mpr (Or.inl rfl),
          hsh _ ((hl1 _).mpr (Or.inl rfl))⟩), by decide⟩
      rcases List.mem_cons.mp hxm with rfl | hxm
      · exact ⟨Or.inr (Or.inl ⟨(hl1 _).mpr (Or.inr rfl),
          hsh _ ((hl1 _).mpr (Or.inr rfl))⟩), by decide⟩
      rcases List.mem_cons.mp hxm with rfl | hxm
      · exact ⟨Or.inr (Or.inr ((hl2 _).mpr rfl)), by decide⟩
      · cases hxm
  have ha : "a" ∈ (requiredSet fs p (dedupS [])
      (lookupA importedFromBy p) (lookupA attrBy p)).1 := (hmem "a").mpr (by decide)
  have hne : (requiredSet fs p (dedupS [])
      (lookupA importedFromBy p) (lookupA attrBy p)).1 ≠ [] := by
    intro h
    rw [h] at ha
    cases ha
  have he : ¬ (requiredSet fs p (dedupS [])
      (lookupA importedFromBy p) (lookupA attrBy p)).1.isEmpty = true := by
    simpa [List.isEmpty_iff] using hne
  have hlen : ¬ (requiredSet fs p (dedupS [])
      (lookupA importedFromBy p) (lookupA attrBy p)).1.length =
      (dedupS ([] : List String)).length := by
    intro hc
    have hz : (dedupS ([] : List String)).length = 0 := rfl
    rw [hz] at hc
    exact hne (List.length_eq_zero.mp hc)
  have hstep : reconcileStep cfg parseFn fs importedFromBy attrBy p =
      .ok ⟨[p, p], some (exportDeclLine (diffS (requiredSet fs p (dedupS [])
          (lookupA importedFromBy p) (lookupA attrBy p)).1 (dedupS [])) ++
          "\n" ++ text), true, [], [],
        (requiredSet fs p (dedupS []) (lookupA importedFromBy p)
          (lookupA attrBy p)).2⟩ := by
    simp only [reconcileStep, hr]
    rw [if_neg (by rw [hx]; exact Bool.false_ne_true), if_neg ht]
    simp only [hp, hf, Option.isSome_none, Option.getD_none, Bool.false_eq_true,
      if_false, modifyAndOpenFiles, if_true]
    rw [if_neg he, if_neg hlen]
    rfl
  have hpass : reconcilePass cfg parseFn importedFromBy attrBy fs [p] =
      .ok ⟨fs.writeFile p (exportDeclLine (diffS (requiredSet fs p (dedupS [])
          (lookupA importedFromBy p) (lookupA attrBy p)).1 (dedupS [])) ++
          "\n" ++ text), [p], [], [],
        (requiredSet fs p (dedupS []) (lookupA importedFromBy p)
          (lookupA attrBy p)).2, [p, p]⟩ := by
    simp only [reconcilePass, hstep, List.append_nil, if_true]
  have hd : diffS (requiredSet fs p (dedupS [])
      (lookupA importedFromBy p) (lookupA attrBy p)).1 (dedupS []) =
      (requiredSet fs p (dedupS [])
      (lookupA importedFromBy p) (lookupA attrBy p)).1 := diffS_nil _
  refine ⟨_, diffS (requiredSet fs p (dedupS [])
    (lookupA importedFromBy p) (lookupA attrBy p)).1 (dedupS []), hstep, rfl, rfl,
    nodup_diffS (nodup_requiredSet (nodup_dedupS _)), ?_, _, hpass, ?_, ?_⟩
  · intro x
    rw [hd]
    exact hmem x
  · exact readFile_writeFile_self fs p _
  · exact List.mem_singleton_self p

/-- Witness for C1: `pkg/m.py` with empty body, from-imported with
`{"a", "b"}` and attribute-accessed with `{"c"}`, is rewritten with a
synthesized list containing exactly `{"a", "b", "c"}`. -/
theorem c1_witness :
    ∃ out addList,
      reconcileStep ⟨[], [], fun _ => false, ""⟩ (fun _ => .ok ⟨[]⟩)
        ⟨["pkg"], [("pkg/m.py", .ok "body")]⟩ [("pkg/m.py", ["a", "b"])]
        [("pkg/m.py", ["c"])] "pkg/m.py" = .ok out ∧
      out.newText = some (exportDeclLine addList ++ "\n" ++ "body") ∧
      out.modified = true ∧ addList.Nodup ∧
      (∀ x, x ∈ addList ↔ x ∈ (["a", "b", "c"] : List String)) ∧
      ∃ po, reconcilePass ⟨[], [], fun _ => false, ""⟩ (fun _ => .ok ⟨[]⟩)
          [("pkg/m.py", ["a", "b"])] [("pkg/m.py", ["c"])]
          ⟨["pkg"], [("pkg/m.py", .ok "body")]⟩ ["pkg/m.py"] = .ok po ∧
        po.fs.readFile "pkg/m.py" =
          .ok (exportDeclLine addList ++ "\n" ++ "body") ∧
        "pkg/m.py" ∈ po.modifiedFiles :=
  c1_roundtrip_synthesis _ _ _ _ _ "pkg/m.py" "body" _ ["a", "b"] ["c"] rfl rfl
    (by decide) rfl rfl rfl (by intro x; simp) rfl (by intro x; simp) (by decide)

/-- C5: idempotence — when every candidate module file of the run parses and
carries a declared export list whose name set equals the module's actual
usage (the union of from-imported names and attribute-accessed names), the
reconciliation run performs zero file modifications: the tree snapshot is
returned unchanged and no file is marked modified, so a second pass after a
first pass changes nothing. -/
theorem c5_consistent_tree_zero_modifications (cfg : Config)
    (parseFn : String → Except String PyModule) (fs : FS)
    (importedFromBy : List (String × List String))
    (attrPairs : List (String × Option String))
    (h : ∀ p ∈ sortS (toCheckImportedModules importedFromBy attrPairs),
      ∃ text code decl, fs.readFile p = .ok text ∧ parseFn text = .ok code ∧
        find__all__ code.body = .ok (some decl) ∧
        (∀ x, x ∈ dedupS decl ↔
          x ∈ usedNames (lookupA importedFromBy p)
            (lookupA (moduleAttrAccessByFpath attrPairs) p))) :
    ∃ po, reconcileRun cfg parseFn fs importedFromBy attrPairs = .ok po ∧
      po.fs = fs ∧ po.modifiedFiles = [] := by
  rw [reconcileRun]
  refine pass_no_write (fun p hp => ?_)
  obtain ⟨text, code, decl, hr, hp', hf, _⟩ := h p hp
  exact ⟨text, code, decl, hr, hp', hf⟩

/-- Witness for C5: a tree whose single candidate declares exactly its usage
is left untouched. -/
theorem c5_witness :
    ∃ po, reconcileRun ⟨[], [], fun _ => false, ""⟩
        (fun _ => .ok ⟨[PyNode.assign [.name "__all__"]
          (.listLit [.constant "a"])]⟩)
        ⟨[], [("m.py", .ok "t")]⟩ [("m.py", ["a"])] [] = .ok po ∧
      po.fs = ⟨[], [("m.py", .ok "t")]⟩ ∧ po.modifiedFiles = [] := by
  refine c5_consistent_tree_zero_modifications _ _ _ _ _ (fun p hp => ?_)
  rw [show sortS (toCheckImportedModules [("m.py", ["a"])] []) = ["m.py"] from rfl]
    at hp
  obtain rfl := List.mem_singleton.mp hp
  exact ⟨"t", ⟨[PyNode.assign [.name "__all__"] (.listLit [.constant "a"])]⟩,
    ["a"], rfl, rfl, rfl, fun x => Iff.rfl⟩

/-- C9: a module file that is a key of neither the aggregated from-import
map nor (through a resolved access) the aggregated attribute map is never
read, reported on, or modified by the reconciliation run: its contents are
unchanged, it is not marked modified, it is never opened, and no stdout or
stderr line of the reconciler names it. -/
theorem c9_unreferenced_file_untouched (cfg : Config)
    (parseFn : String → Except String PyModule) (fs : FS)
    (importedFromBy : List (String × List String))
    (attrPairs : List (String × Option String)) (p : String) (po : PassOut)
    (h1 : ∀ l, (p, l) ∉ importedFromBy)
    (h2 : ∀ a, (a, some p) ∉ attrPairs)
    (hrun : reconcileRun cfg parseFn fs importedFromBy attrPairs = .ok po) :
    po.fs.readFile p = fs.readFile p ∧ p ∉ po.modifiedFiles ∧ p ∉ po.reads ∧
      (∀ r ∈ po.reports, r.path ≠ p) ∧ (∀ r ∈ po.diags, r.path ≠ p) := by
  rw [reconcileRun] at hrun
  refine pass_untouched ?_ hrun
  intro hp
  rcases mem_toCheck.mp (mem_sortS.mp hp) with ⟨l, hl⟩ | ⟨a, ha⟩
  · exact h1 l hl
  · exact h2 a ha

/-- Witness for C9: `y.py` is referenced by nothing; a run that checks
`x.py` leaves `y.py` unread, unreported, and unmodified. -/
theorem c9_witness :
    (⟨⟨[], [("x.py", ReadResult.ok "t"), ("y.py", ReadResult.ok "u")]⟩, [],
        [], [], [], ["x.py"]⟩ : PassOut).fs.readFile "y.py" =
      FS.readFile ⟨[], [("x.py", ReadResult.ok "t"), ("y.py", ReadResult.ok "u")]⟩
        "y.py" ∧
    "y.py" ∉ (⟨⟨[], [("x.py", ReadResult.ok "t"), ("y.py", ReadResult.ok "u")]⟩,
        [], [], [], [], ["x.py"]⟩ : PassOut).modifiedFiles ∧
    "y.py" ∉ (⟨⟨[], [("x.py", ReadResult.ok "t"), ("y.py", ReadResult.ok "u")]⟩,
        [], [], [], [], ["x.py"]⟩ : PassOut).reads ∧
    (∀ r ∈ (⟨⟨[], [("x.py", ReadResult.ok "t"), ("y.py", ReadResult.ok "u")]⟩,
        [], [], [], [], ["x.py"]⟩ : PassOut).reports, r.path ≠ "y.py") ∧
    (∀ r ∈ (⟨⟨[], [("x.py", ReadResult.ok "t"), ("y.py", ReadResult.ok "u")]⟩,
        [], [], [], [], ["x.py"]⟩ : PassOut).diags, r.path ≠ "y.py") :=
  c9_unreferenced_file_untouched ⟨[], [], fun _ => false, ""⟩
    (fun _ => .ok ⟨[PyNode.assign [.name "__all__"] (.listLit [.constant "a"])]⟩)
    ⟨[], [("x.py", .ok "t"), ("y.py", .ok "u")]⟩ [("x.py", ["a"])] [] "y.py" _
    (by intro l hl; simp at hl) (fun a ha => List.not_mem_nil _ ha) rfl

/-- C7 counterexample: the collection pass over a directory whose first file
exists but cannot be read aborts with a fatal read error instead of skipping
it — the second, readable file is never processed — refuting the claim that a
file whose contents cannot be read is skipped with a diagnostic and never
blocks the batch. -/
theorem c7_counterexample :
    FS.readFile ⟨[], [("bad.py", .ioErr), ("good.py", .ok "")]⟩ "bad.py" =
      .ioErr ∧
    collectPass ⟨[], [], fun _ => false, ""⟩
      ⟨[], [("bad.py", .ioErr), ("good.py", .ok "")]⟩ (fun _ => .ok ⟨[]⟩)
      [⟨"", [], ["bad.py", "good.py"]⟩] ⟨[], [], [], []⟩ =
      .error (.readError "bad.py") :=
  ⟨rfl, rfl⟩

/-- C7 amended: a file whose contents parse-fail is skipped with a diagnostic
naming the file and error, contributes no usage, and leaves processing to
continue, in both the usage-collection pass and the reconciliation pass
(each returns a non-fatal result with unchanged aggregation state); a file
whose contents cannot be read, by contrast, hits an unguarded `open` and
aborts the run. -/
theorem c7_parse_failure_skipped (cfg : Config) (fs : FS)
    (parseFn : String → Except String PyModule)
    (dirPathRel fname : String) (subDirs files : List String) (g : GState)
    (importedFromBy attrBy : List (String × List String)) (text e : String)
    (hpy : strEndsWith fname ".py" = true)
    (hx1 : cfg.isExcluded (cfg.rootDir ++ joinParts [dirPathRel, fname]) = false)
    (hx2 : cfg.isExcluded (joinParts [dirPathRel, fname]) = false)
    (hr : fs.readFile (joinParts [dirPathRel, fname]) = .ok text)
    (hp : parseFn text = .error e)
    (ht : ¬ cfg.excludeToplevel.contains
      ((splitOnChar '/' (joinParts [dirPathRel, fname])).headD "") = true) :
    processFile cfg fs parseFn dirPathRel fname subDirs files g =
      .ok { g with diags := g.diags ++
        [.parseFailure (joinParts [dirPathRel, fname]) e] } ∧
    reconcileStep cfg parseFn fs importedFromBy attrBy
      (joinParts [dirPathRel, fname]) =
      .ok ⟨[joinParts [dirPathRel, fname]], none, false, [],
        [.parseFailure (joinParts [dirPathRel, fname]) e], []⟩ := by
  constructor
  · rw [processFile]
    rw [if_neg (by rw [hpy]; intro hc; cases hc)]
    rw [if_neg (by rw [hx1]; exact Bool.false_ne_true)]
    rw [if_neg (by rw [hx2]; exact Bool.false_ne_true)]
    simp only [hr, hp]
  · simp only [reconcileStep, hr]
    rw [if_neg (by rw [hx2]; exact Bool.false_ne_true), if_neg ht]
    simp only [hp]

/-- Witness for the amended C7: a file whose text does not parse is skipped
by both passes with a parse-failure diagnostic and unchanged state. -/
theorem c7_witness :
    processFile ⟨[], [], fun _ => false, ""⟩ ⟨[], [("m.py", .ok "t")]⟩
      (fun _ => .error "boom") "" "m.py" [] ["m.py"] ⟨[], [], [], []⟩ =
      .ok { (⟨[], [], [], []⟩ : GState) with diags := ([] : List Report) ++
        [.parseFailure (joinParts ["", "m.py"]) "boom"] } ∧
    reconcileStep ⟨[], [], fun _ => false, ""⟩ (fun _ => .error "boom")
      ⟨[], [("m.py", .ok "t")]⟩ [] [] (joinParts ["", "m.py"]) =
      .ok ⟨[joinParts ["", "m.py"]], none, false, [],
        [.parseFailure (joinParts ["", "m.py"]) "boom"], []⟩ :=
  c7_parse_failure_skipped _ _ _ "" "m.py" [] ["m.py"] _ [] [] "t" "boom"
    (by decide) rfl rfl rfl rfl (by decide)

end ImportAnalyzer
